import Mathlib

/-!
Shallow embedding of the declarative-scheduling-related fragments of the
repository (dagster), used to settle the claims about its specification.

Sections:
* the value-hash expectation table of
  `dagster_tests/.../asset_condition_tests/test_result_value_hash.py`;
* `CompoundID` from `dagster/_core/remote_representation/external.py`;
* `seconds_in_words`, `ensure_no_duplicate_assets`, `retrieve_latest_record`
  from `dagster/_core/definitions/asset_check_factories/utils.py`;
* the default automation sensor computation of
  `ExternalRepository._external_sensors` in `external.py`;
* a condition evaluator modelled from the spec (the evaluator itself is not
  part of the provided sources, only its callers and tests are).

Python machine floats are modelled as `ℚ`, Python ints as `ℤ`/`ℕ`, raised
exceptions as `Except String`.
-/

namespace DagsterSpec

/-! ### Value-hash expectations, from `test_result_value_hash.py`

The repository pins, for a fixed evaluation scenario (condition, asset graph,
whether asset `A` was materialized between the two evaluations of
`downstream`), the exact `value_hash` of the evaluation result. The table
below is the `pytest.mark.parametrize` table of `test_value_hash`: it is the
repository's own authoritative statement of what `value_hash` is in each
scenario (the hash implementation itself is not among the provided sources).
-/

/-- The four automation conditions exercised by `test_value_hash`:
`SC.cron("0 * * * *")`, `SC.cron("0 0 * * *")`, `SC.eager()`, `SC.missing()`. -/
inductive TestCondition
  | cronHourly
  | cronDaily
  | eager
  | missingCond
  deriving DecidableEq

/-- The four scenario specs of `test_result_value_hash.py`: `one_parent`,
`two_parents`, and their daily-partitioned variants. -/
inductive TestScenario
  | oneParent
  | twoParents
  | oneParentDaily
  | twoParentsDaily
  deriving DecidableEq

/-- Whether the scenario uses `DailyPartitionsDefinition(start_date="2020-01-01")`
rather than an unpartitioned assets graph. -/
def TestScenario.isDaily : TestScenario → Bool
  | .oneParentDaily => true
  | .twoParentsDaily => true
  | _ => false

/-- One row of the `test_value_hash` parametrize table:
`(expected_value_hash, condition, scenario_spec, materialize_A)`. -/
structure ValueHashCase where
  expectedValueHash : String
  condition : TestCondition
  scenarioSpec : TestScenario
  materializeA : Bool
  deriving DecidableEq

/-- The full parametrize table of `test_value_hash`, transcribed row by row. -/
def valueHashCases : List ValueHashCase :=
  [⟨"b965fde7adb65aefeaceccb72d1924f7", .cronHourly, .oneParent, false⟩,
   ⟨"455fa56d35fd9ae07bc9ee891ea109d7", .cronHourly, .oneParent, true⟩,
   ⟨"e038e2ffef6417fe048dbdb927b56fdf", .cronDaily, .oneParent, false⟩,
   ⟨"80742dcd71a359a366d8312dfa283ffb", .cronHourly, .oneParentDaily, false⟩,
   ⟨"0179e633e3c1aac0d7af0dd3a3889f1a", .cronHourly, .twoParents, false⟩,
   ⟨"72bf7d1e533896a459ea3f46d30540d6", .cronHourly, .twoParentsDaily, false⟩,
   ⟨"b60a8bd378adc06d0f6b20d521e64a86", .eager, .oneParent, false⟩,
   ⟨"c8d5928ae9965d3dc4c271b20121680d", .eager, .oneParent, true⟩,
   ⟨"ea699de7aef5356433e435dcaf4ab51e", .eager, .oneParentDaily, false⟩,
   ⟨"2819ba2e50803da9f146fd034e0df412", .eager, .twoParents, false⟩,
   ⟨"5f94b12ce4e5c9c424b9f37335d8cb82", .eager, .twoParentsDaily, false⟩,
   ⟨"651bece3ee8bb50d1616924f0a65f3fd", .missingCond, .oneParent, false⟩,
   ⟨"651bece3ee8bb50d1616924f0a65f3fd", .missingCond, .oneParent, true⟩,
   ⟨"651bece3ee8bb50d1616924f0a65f3fd", .missingCond, .twoParents, false⟩,
   ⟨"ba2310926ab693fc05f1fc48a5b6e537", .missingCond, .twoParentsDaily, false⟩,
   ⟨"ba2310926ab693fc05f1fc48a5b6e537", .missingCond, .oneParentDaily, false⟩]

/-- The `value_hash` the repository asserts for a given scenario, when the
scenario is covered by the `test_value_hash` table. -/
def expectedValueHash (c : TestCondition) (s : TestScenario) (m : Bool) :
    Option String :=
  (valueHashCases.find? (fun row =>
      row.condition == c && row.scenarioSpec == s && row.materializeA == m)).map
    (fun row => row.expectedValueHash)

/-! ### `CompoundID`, from `_core/remote_representation/external.py`

Strings are modelled as `List Char`; `_DELIMITER = "::"` and Python's
`str.split` (non-overlapping, leftmost-first matches of a fixed separator)
are modelled explicitly. -/

/-- `CompoundID`: compound ID object for the two id schemes that instigator
state is recorded against. -/
structure CompoundID where
  remote_origin_id : List Char
  selector_id : List Char
  deriving DecidableEq

/-- `CompoundID.to_string`: `f"{self.remote_origin_id}::{self.selector_id}"`. -/
def CompoundID.to_string (cid : CompoundID) : List Char :=
  cid.remote_origin_id ++ [':', ':'] ++ cid.selector_id

/-- Python's `s.split("::")`: scan left to right, splitting at each
non-overlapping occurrence of the two-character delimiter. `acc` holds the
(reversed) characters of the current piece. -/
def pySplitOnDD : List Char → List Char → List (List Char)
  | [], acc => [acc.reverse]
  | [c], acc => [(c :: acc).reverse]
  | c1 :: c2 :: rest, acc =>
    if c1 = ':' ∧ c2 = ':' then acc.reverse :: pySplitOnDD rest []
    else pySplitOnDD (c2 :: rest) (c1 :: acc)

/-- `CompoundID.from_string`: split on `"::"`; raise
`DagsterInvariantViolationError` unless exactly two parts result. -/
def CompoundID.from_string (serialized : List Char) : Except String CompoundID :=
  match pySplitOnDD serialized [] with
  | [p1, p2] => .ok { remote_origin_id := p1, selector_id := p2 }
  | _ => .error ("Invalid serialized InstigatorID: " ++ String.mk serialized)

/-- `CompoundID.is_valid_string`: the split yields exactly two parts. -/
def CompoundID.is_valid_string (serialized : List Char) : Bool :=
  (pySplitOnDD serialized []).length == 2

/-- Whether a string contains the delimiter `"::"` as a substring. -/
def containsDD : List Char → Bool
  | [] => false
  | [_] => false
  | c1 :: c2 :: rest => (c1 = ':' && c2 = ':') || containsDD (c2 :: rest)

/-! ### `seconds_in_words`, from `asset_check_factories/utils.py`

`delta` is a Python float, modelled as `ℚ`. Python's `//` on floats is
`⌊x / y⌋` and `%` is `x - y * ⌊x / y⌋` (for a positive modulus the result is
in `[0, y)`); Python's `int()` truncates toward zero, which on the
non-negative values produced by `%` coincides with the floor. -/

/-- Python `x % y` on floats (`y > 0`): `x - y * (x // y)`. -/
def pyModQ (x y : ℚ) : ℚ := x - y * (⌊x / y⌋ : ℚ)

/-- `seconds_in_words(delta)`: converts seconds to a human-readable string,
format `"X days, Y hours, Z minutes, A seconds"`. Transcribed clause by
clause from the source. -/
def seconds_in_words (delta : ℚ) : String :=
  let days : ℤ := ⌊delta / 86400⌋
  let days_unit : Option String :=
    if days > 1 then some "days" else if days = 1 then some "day" else none
  let hours : ℤ := ⌊pyModQ delta 86400 / 3600⌋
  let hours_unit : Option String :=
    if hours > 1 then some "hours" else if hours = 1 then some "hour" else none
  let minutes : ℤ := ⌊pyModQ delta 3600 / 60⌋
  let minutes_unit : Option String :=
    if minutes > 1 then some "minutes" else if minutes = 1 then some "minute" else none
  let seconds : ℤ := ⌊pyModQ delta 60⌋
  let seconds_unit : Option String :=
    if seconds > 1 then some "seconds" else if seconds = 1 then some "second" else none
  String.intercalate ", " (List.filterMap id
    [days_unit.map (fun u => toString days ++ " " ++ u),
     hours_unit.map (fun u => toString hours ++ " " ++ u),
     minutes_unit.map (fun u => toString minutes ++ " " ++ u),
     seconds_unit.map (fun u => toString seconds ++ " " ++ u)])

/-- The claim's wording of one output component: present exactly when the
integer component is non-zero, singular exactly when it equals `1`. -/
def claimComponent (n : ℤ) (singular plural : String) : Option String :=
  if n = 0 then none
  else some (toString n ++ " " ++ (if n = 1 then singular else plural))

/-- The output format claimed for `seconds_in_words`, stated over the
standard days/hours/minutes/seconds decomposition of `⌊delta⌋` (this is the
comparison definition written from the claim's words, to be proved equal to
`seconds_in_words` on non-negative inputs). -/
def claimed_seconds_in_words (delta : ℚ) : String :=
  let t : ℕ := ⌊delta⌋₊
  String.intercalate ", " (List.filterMap id
    [claimComponent (t / 86400 : ℕ) "day" "days",
     claimComponent (t % 86400 / 3600 : ℕ) "hour" "hours",
     claimComponent (t % 3600 / 60 : ℕ) "minute" "minutes",
     claimComponent (t % 60 : ℕ) "second" "seconds"])

/-! ### `ensure_no_duplicate_assets`, from `asset_check_factories/utils.py` -/

/-- An entry of the `assets` argument: a `CoercibleToAssetKey`, an
`AssetsDefinition` (which contributes all of its keys), or a `SourceAsset`.
Asset keys are paths of string segments. -/
inductive CoercibleAsset
  | coercibleKey (key : List String)
  | assetsDef (keys : List (List String))
  | sourceAsset (key : List String)
  deriving DecidableEq

/-- `_asset_to_keys_iterable`: the keys contributed by one entry. -/
def asset_to_keys_iterable : CoercibleAsset → List (List String)
  | .coercibleKey key => [key]
  | .assetsDef keys => keys
  | .sourceAsset key => [key]

/-- `assets_to_keys`: all keys of all entries, in order. -/
def assets_to_keys (assets : List CoercibleAsset) : List (List String) :=
  assets.flatMap asset_to_keys_iterable

/-- `ensure_no_duplicate_assets`: collect the keys, list those occurring more
than once, and fail the `check.invariant` (raising with the message below)
unless that list is empty. -/
def ensure_no_duplicate_assets (assets : List CoercibleAsset) :
    Except String Unit :=
  let asset_keys := assets_to_keys assets
  let duplicate_assets := asset_keys.filter (fun k => asset_keys.count k > 1)
  if duplicate_assets.length = 0 then .ok ()
  else .error ("Found duplicate assets in the provided list of assets: "
    ++ toString duplicate_assets ++ ". Please ensure that each asset is unique.")

/-- `sub` occurs as a contiguous substring of `s`. -/
def strContains (s sub : String) : Prop :=
  ∃ pre post : List Char, s.data = pre ++ sub.data ++ post

/-! ### `retrieve_latest_record`, from `asset_check_factories/utils.py` -/

/-- The two event types the function distinguishes. -/
inductive DagsterEventType
  | assetMaterialization
  | assetObservation
  deriving DecidableEq

/-- A metadata value: either a Python float (the only type the timestamp
invariant accepts) or anything else. -/
inductive MetadataValue
  | floatValue (value : ℚ)
  | otherValue (description : String)
  deriving DecidableEq

/-- An event-log record: storage timestamp, event type, asset key, optional
partition, and the metadata of the embedded materialization/observation. -/
structure EventLogRecord where
  eventType : DagsterEventType
  timestamp : ℚ
  assetKey : List String
  partitionKey : Option String
  metadata : List (String × MetadataValue)
  deriving DecidableEq

def LAST_UPDATED_TIMESTAMP_METADATA_KEY : String := "dagster/last_updated_timestamp"

/-- `retrieve_timestamp_from_record`: a materialization's storage timestamp;
an observation's `dagster/last_updated_timestamp` metadata value, raising
(`KeyError` / failed `check.invariant`) when the key is absent or its value
is not a float. -/
def retrieve_timestamp_from_record (asset_record : EventLogRecord) :
    Except String ℚ :=
  if asset_record.eventType = .assetMaterialization then
    .ok asset_record.timestamp
  else
    match asset_record.metadata.lookup LAST_UPDATED_TIMESTAMP_METADATA_KEY with
    | some (.floatValue v) => .ok v
    | some (.otherValue _) =>
      .error "Unexpected metadata value type for dagster/last_updated_timestamp"
    | none => .error "KeyError: dagster/last_updated_timestamp"

/-- The event-log store: records ordered most recent first (the storage
returns descending storage order, which `fetch_*` with `limit=1` relies on). -/
structure DagsterInstance where
  records : List EventLogRecord

/-- The `AssetRecordsFilter` test: same asset key and, when a partition key
was supplied, that partition. -/
def recordMatches (asset_key : List String) (partition_key : Option String)
    (r : EventLogRecord) : Bool :=
  r.assetKey == asset_key &&
    match partition_key with
    | none => true
    | some p => r.partitionKey == some p

/-- `instance.fetch_materializations(records_filter, limit=1)`. -/
def fetch_materializations (inst : DagsterInstance) (asset_key : List String)
    (partition_key : Option String) : List EventLogRecord :=
  (inst.records.filter (fun r =>
    r.eventType == .assetMaterialization && recordMatches asset_key partition_key r)).take 1

/-- `instance.fetch_observations(records_filter, limit=1)`. -/
def fetch_observations (inst : DagsterInstance) (asset_key : List String)
    (partition_key : Option String) : List EventLogRecord :=
  (inst.records.filter (fun r =>
    r.eventType == .assetObservation && recordMatches asset_key partition_key r)).take 1

/-- `retrieve_latest_record`: the latest materialization or observation; when
both exist, Python's `max(mat, obs, key=retrieve_timestamp_from_record)`
(which returns the *first* argument on ties, and propagates any exception
raised while extracting the timestamps). -/
def retrieve_latest_record (inst : DagsterInstance) (asset_key : List String)
    (partition_key : Option String) : Except String (Option EventLogRecord) :=
  let materializations := fetch_materializations inst asset_key partition_key
  let observations := fetch_observations inst asset_key partition_key
  match materializations, observations with
  | m :: _, o :: _ => do
    let tm ← retrieve_timestamp_from_record m
    let tobs ← retrieve_timestamp_from_record o
    pure (some (if tobs > tm then o else m))
  | m :: _, [] => .ok (some m)
  | [], o :: _ => .ok (some o)
  | [], [] => .ok none

/-- The latest materialization record for the key/partition, if any. -/
def latestMaterialization (inst : DagsterInstance) (asset_key : List String)
    (partition_key : Option String) : Option EventLogRecord :=
  (fetch_materializations inst asset_key partition_key).head?

/-- The latest observation record for the key/partition, if any. -/
def latestObservation (inst : DagsterInstance) (asset_key : List String)
    (partition_key : Option String) : Option EventLogRecord :=
  (fetch_observations inst asset_key partition_key).head?

/-! ### The default automation sensor, from
`ExternalRepository._external_sensors` in `external.py`

The computation in `external.py` decides whether to add a sensor named
`default_automation_condition_sensor` and with which asset selection. It
consumes an asset graph and the repository's asset selections, whose
resolution machinery is outside the provided sources; those parts are
modelled from the spec below. -/

/-- An entity key: an asset key or an asset-check key (an asset key plus a
check name). -/
inductive EntityKey
  | asset (key : List String)
  | check (key : List String) (name : String)
  deriving DecidableEq

def EntityKey.isCheckKey : EntityKey → Bool
  | .asset _ => false
  | .check _ _ => true

/-- Modelled from the spec: the asset-selection expressions the computation
builds and consumes (`AssetSelection.all`, `AssetSelection.all_asset_checks`,
union, difference, and explicit key selections for the pre-existing
sensors). -/
inductive AssetSelection
  | all (includeSources : Bool)
  | allAssetChecks
  | union (left right : AssetSelection)
  | difference (left right : AssetSelection)
  | keys (selected : List EntityKey)
  deriving DecidableEq

/-- Modelled from the spec: the asset-graph snapshot the computation reads —
materializable asset keys, asset-check keys, observable (source) asset keys,
and per-entity automation-condition / auto-observe-interval attributes. -/
structure AssetGraphModel where
  materializableAssetKeys : List (List String)
  assetCheckKeys : List (List String × String)
  observableAssetKeys : List (List String)
  automationCondition : EntityKey → Bool
  autoObserveIntervalMinutes : List String → Option ℚ

/-- Modelled from the spec: resolving a selection against the asset graph to
the set of entity keys it selects (`resolve` unioned with `resolve_checks`,
as the coverage loop in `_external_sensors` does). -/
def resolveSelection : AssetSelection → AssetGraphModel → EntityKey → Bool
  | .all includeSources, g, .asset a =>
    g.materializableAssetKeys.contains a
      || (includeSources && g.observableAssetKeys.contains a)
  | .all _, _, .check _ _ => false
  | .allAssetChecks, _, .asset _ => false
  | .allAssetChecks, g, .check a n => g.assetCheckKeys.contains (a, n)
  | .union l r, g, k => resolveSelection l g k || resolveSelection r g k
  | .difference l r, g, k => resolveSelection l g k && !resolveSelection r g k
  | .keys selected, _, k => selected.contains k

/-- One pre-existing sensor: its type and asset selection. -/
inductive SensorType
  | autoMaterialize
  | automation
  | standard
  deriving DecidableEq

structure SensorData where
  name : String
  sensorType : SensorType
  assetSelection : AssetSelection
  deriving DecidableEq

/-- The filter picking `existing_automation_condition_sensors`. -/
def isAutomationConditionSensor (s : SensorData) : Bool :=
  s.sensorType == .autoMaterialize || s.sensorType == .automation

/-- `covered_entity_keys` membership: some existing automation sensor's
resolved selection contains the key. -/
def coveredByExisting (g : AssetGraphModel) (existing : List SensorData)
    (k : EntityKey) : Bool :=
  existing.any (fun s => resolveSelection s.assetSelection g k)

/-- `has_any_auto_observe_source_assets`: some observable asset passes the
`continue` filter (auto-observe interval set, or an automation condition). -/
def hasAnyAutoObserveSourceAssets (g : AssetGraphModel) : Bool :=
  g.observableAssetKeys.any (fun a =>
    (g.autoObserveIntervalMinutes a).isSome || g.automationCondition (.asset a))

/-- `default_sensor_entity_keys`: uncovered materializable/check keys with an
automation condition, plus uncovered observable keys passing the
auto-observe filter. -/
def defaultSensorEntityKeys (g : AssetGraphModel) (existing : List SensorData) :
    List EntityKey :=
  ((g.materializableAssetKeys.map EntityKey.asset
      ++ g.assetCheckKeys.map (fun p => EntityKey.check p.1 p.2)).filter
    (fun k => g.automationCondition k && !coveredByExisting g existing k))
  ++ ((g.observableAssetKeys.map EntityKey.asset).filter (fun k =>
      (match k with
       | .asset a => (g.autoObserveIntervalMinutes a).isSome
       | .check _ _ => false) || g.automationCondition k)).filter
    (fun k => !coveredByExisting g existing k)

/-- A key is eligible for the default sensor: a materializable asset or asset
check carrying an automation condition, or an observable asset with an
auto-observe interval or an automation condition. -/
def eligibleEntityKey (g : AssetGraphModel) (k : EntityKey) : Bool :=
  ((match k with
    | .asset a => g.materializableAssetKeys.contains a
    | .check a n => g.assetCheckKeys.contains (a, n)) && g.automationCondition k)
  || (match k with
      | .asset a => g.observableAssetKeys.contains a
          && ((g.autoObserveIntervalMinutes a).isSome || g.automationCondition k)
      | .check _ _ => false)

/-- The base selection before subtraction: `AssetSelection.all(include_sources=
has_any_auto_observe_source_assets)`, unioned with `all_asset_checks` when
some default-sensor key is a check key. -/
def defaultSensorBaseSelection (g : AssetGraphModel) (existing : List SensorData) :
    AssetSelection :=
  let base := AssetSelection.all (hasAnyAutoObserveSourceAssets g)
  if (defaultSensorEntityKeys g existing).any EntityKey.isCheckKey then
    .union base .allAssetChecks
  else base

/-- The `_external_sensors` fragment: the asset selection of the
`default_automation_condition_sensor` that is added to the sensor map, or
`none` when no sensor is added. -/
def externalSensorsDefaultSelection (g : AssetGraphModel)
    (sensors : List SensorData) (autoMaterializeUseSensors : Bool) :
    Option AssetSelection :=
  if autoMaterializeUseSensors then
    let existing := sensors.filter isAutomationConditionSensor
    if (defaultSensorEntityKeys g existing).isEmpty then none
    else
      some (existing.foldl
        (fun acc s => .difference acc s.assetSelection)
        (defaultSensorBaseSelection g existing))
  else none

/-! ### The condition evaluator, modelled from the spec

Modelled from the spec: the `SchedulingConditionEvaluator` and the condition
tree evaluation (spec sections 4.3–4.4) are not among the provided source
files — only their test harness `execute_ds_tick` and the tests are. The
model below follows the spec's words: per-asset candidate subsets, an
"eager" condition (missing, or parent updated — where a parent counts as
updated when its true-subset was computed earlier in the same tick or it was
newly materialized since the cursor), assets processed in the dependency
(topological) order in which the graph list is given, and the tick's
requested set formed by unioning the per-asset true-subsets (spec 4.4
step 3). -/

/-- `(AssetKey, optional partition key)` — the atomic scheduling unit. -/
structure AssetKeyPartitionKey where
  assetKey : List String
  partitionKey : Option String
  deriving DecidableEq

/-- The condition-tree fragment the claims exercise. -/
inductive SchedulingConditionModel
  | missingCondition
  | parentUpdated
  | andCondition (left right : SchedulingConditionModel)
  | orCondition (left right : SchedulingConditionModel)
  deriving DecidableEq

/-- `SchedulingCondition.eager()`: materialize if missing or parent updated. -/
def eagerCondition : SchedulingConditionModel :=
  .orCondition .missingCondition .parentUpdated

/-- One asset node: key, upstream dependencies, attached condition, and its
partition keys (`none` = unpartitioned). -/
structure AssetNodeModel where
  key : List String
  deps : List (List String)
  condition : SchedulingConditionModel
  partitionKeys : Option (List String)
  deriving DecidableEq

/-- `AssetConditionEvaluationState`: per-asset, per-tick record of the
resulting true-subset. -/
structure AssetConditionEvaluationState where
  assetKey : List String
  trueSubset : List AssetKeyPartitionKey
  deriving DecidableEq

/-- The event history and cursor data a tick reads: everything ever
materialized, and the asset keys materialized since the previous cursor. -/
structure SchedulingHistory where
  materialized : List AssetKeyPartitionKey
  newlyMaterializedAssetKeys : List (List String)
  deriving DecidableEq

/-- The candidate subset of an asset: all its current partitions (a single
`none`-partition entry for an unpartitioned asset). -/
def candidateSubset (node : AssetNodeModel) : List AssetKeyPartitionKey :=
  match node.partitionKeys with
  | none => [{ assetKey := node.key, partitionKey := none }]
  | some ps => ps.map (fun p => { assetKey := node.key, partitionKey := some p })

/-- A dependency's true-subset computed earlier this tick is non-empty. -/
def parentUpdatedThisTick (states : List AssetConditionEvaluationState)
    (dep : List String) : Bool :=
  states.any (fun st => st.assetKey == dep && !st.trueSubset.isEmpty)

/-- Evaluate one condition node for one asset partition, seeing the states
already produced this tick. -/
def evalCondition (history : SchedulingHistory)
    (states : List AssetConditionEvaluationState) (node : AssetNodeModel)
    (akpk : AssetKeyPartitionKey) : SchedulingConditionModel → Bool
  | .missingCondition => !(history.materialized.contains akpk)
  | .parentUpdated =>
    node.deps.any (fun dep =>
      parentUpdatedThisTick states dep
        || history.newlyMaterializedAssetKeys.contains dep)
  | .andCondition l r =>
    evalCondition history states node akpk l && evalCondition history states node akpk r
  | .orCondition l r =>
    evalCondition history states node akpk l || evalCondition history states node akpk r

/-- Evaluate one asset's condition tree over its candidate subset. -/
def evaluateAsset (history : SchedulingHistory)
    (states : List AssetConditionEvaluationState) (node : AssetNodeModel) :
    AssetConditionEvaluationState :=
  { assetKey := node.key
    trueSubset := (candidateSubset node).filter (fun akpk =>
      evalCondition history states node akpk node.condition) }

/-- Evaluate all assets in the (topological) order given, each seeing the
states of the assets evaluated before it. -/
def evaluateTickStates (graph : List AssetNodeModel)
    (history : SchedulingHistory) : List AssetConditionEvaluationState :=
  graph.foldl (fun acc node => acc ++ [evaluateAsset history acc node]) []

/-- One evaluation tick: the per-asset evaluation states, and the requested
set obtained by unioning all true-subsets (spec 4.4 step 3). -/
def evaluateTick (graph : List AssetNodeModel) (history : SchedulingHistory) :
    List AssetConditionEvaluationState × List AssetKeyPartitionKey :=
  let states := evaluateTickStates graph history
  (states, states.foldl (fun requested st => requested ++ st.trueSubset) [])

/-- The two-asset scenario of `test_basic_asset_scheduling_test`: `upstream`
and `downstream` (depending on `upstream`), both unpartitioned, both eager. -/
def upstreamNode : AssetNodeModel :=
  { key := ["upstream"], deps := [], condition := eagerCondition, partitionKeys := none }

def downstreamNode : AssetNodeModel :=
  { key := ["downstream"], deps := [["upstream"]], condition := eagerCondition,
    partitionKeys := none }

/-- `AssetDaemonCursor.empty()` with no prior materializations. -/
def emptyHistory : SchedulingHistory :=
  { materialized := [], newlyMaterializedAssetKeys := [] }

/-! ## Theorems -/

/-- Membership in the fold that unions the per-asset true-subsets. -/
theorem mem_foldl_append_trueSubset
    (l : List AssetConditionEvaluationState)
    (init : List AssetKeyPartitionKey) (x : AssetKeyPartitionKey) :
    x ∈ l.foldl (fun requested st => requested ++ st.trueSubset) init ↔
      x ∈ init ∨ ∃ st ∈ l, x ∈ st.trueSubset := by
  induction l generalizing init with
  | nil => simp
  | cons st rest ih =>
    rw [List.foldl_cons, ih]
    simp [or_assoc]

/-- C1. The repository's own value-hash table refutes the claim that a fixed
condition's `value_hash` is unchanged by materializing a parent asset: for
`SC.cron("0 * * * *")` on the `one_parent` graph, the expected hash differs
between the run without and the run with a materialization of `A`. -/
theorem value_hash_changes_on_materialization_counterexample :
    expectedValueHash .cronHourly .oneParent false =
      some "b965fde7adb65aefeaceccb72d1924f7" ∧
    expectedValueHash .cronHourly .oneParent true =
      some "455fa56d35fd9ae07bc9ee891ea109d7" ∧
    expectedValueHash .cronHourly .oneParent false ≠
      expectedValueHash .cronHourly .oneParent true ∧
    expectedValueHash .eager .oneParent false ≠
      expectedValueHash .eager .oneParent true := by
  decide

/-- C1 (amended). Invariance of `value_hash` under data-only changes holds
for the `missing` condition: every row of the table for `SC.missing()` has a
hash determined solely by whether the scenario's partitions definition is
daily — independent of the parent set and of whether `A` was materialized. -/
theorem value_hash_missing_rows_invariant (row : ValueHashCase)
    (hmem : row ∈ valueHashCases) (hcond : row.condition = .missingCond) :
    row.expectedValueHash =
      (if row.scenarioSpec.isDaily then "ba2310926ab693fc05f1fc48a5b6e537"
       else "651bece3ee8bb50d1616924f0a65f3fd") := by
  revert hcond
  fin_cases hmem <;> decide

/-- Witness for `value_hash_missing_rows_invariant` at the
`(SC.missing(), one_parent, materialize_A=True)` row. -/
theorem value_hash_missing_rows_invariant_witness :
    ((⟨"651bece3ee8bb50d1616924f0a65f3fd", .missingCond, .oneParent, true⟩ :
        ValueHashCase) ∈ valueHashCases ∧
      (⟨"651bece3ee8bb50d1616924f0a65f3fd", .missingCond, .oneParent, true⟩ :
        ValueHashCase).condition = .missingCond) ∧
    (⟨"651bece3ee8bb50d1616924f0a65f3fd", .missingCond, .oneParent, true⟩ :
        ValueHashCase).expectedValueHash =
      (if (⟨"651bece3ee8bb50d1616924f0a65f3fd", .missingCond, .oneParent, true⟩ :
          ValueHashCase).scenarioSpec.isDaily
       then "ba2310926ab693fc05f1fc48a5b6e537"
       else "651bece3ee8bb50d1616924f0a65f3fd") :=
  ⟨⟨by decide, rfl⟩,
    value_hash_missing_rows_invariant _ (by decide) rfl⟩

/-- C2. Evaluation is deterministic: the modelled evaluator is a pure
function of (graph, history/cursor) — identical inputs give identical
evaluation states and requested sets — and for the fixed
`(SC.eager(), one_parent, no materialization)` scenario the repository pins
the fixed golden `value_hash` constant. -/
theorem evaluation_deterministic (g g' : List AssetNodeModel)
    (h h' : SchedulingHistory) (hg : g = g') (hh : h = h') :
    evaluateTick g h = evaluateTick g' h' ∧
    expectedValueHash .eager .oneParent false =
      some "b60a8bd378adc06d0f6b20d521e64a86" := by
  subst hg hh
  exact ⟨rfl, by decide⟩

/-- Witness for `evaluation_deterministic` at the two-asset scenario. -/
theorem evaluation_deterministic_witness :
    (([upstreamNode, downstreamNode] : List AssetNodeModel) =
        [upstreamNode, downstreamNode] ∧ emptyHistory = emptyHistory) ∧
    (evaluateTick [upstreamNode, downstreamNode] emptyHistory =
        evaluateTick [upstreamNode, downstreamNode] emptyHistory ∧
      expectedValueHash .eager .oneParent false =
        some "b60a8bd378adc06d0f6b20d521e64a86") :=
  ⟨⟨rfl, rfl⟩, evaluation_deterministic _ _ _ _ rfl rfl⟩

/-- C3. One tick over the eager two-asset graph, from the empty cursor with
no prior materializations: the requested set is exactly
`{upstream, downstream}` (both with no partition key), and both per-asset
evaluation states have a non-empty true-subset. -/
theorem basic_asset_scheduling_tick :
    evaluateTick [upstreamNode, downstreamNode] emptyHistory =
      ([⟨["upstream"], [⟨["upstream"], none⟩]⟩,
        ⟨["downstream"], [⟨["downstream"], none⟩]⟩],
       [⟨["upstream"], none⟩, ⟨["downstream"], none⟩]) ∧
    (∀ x, x ∈ (evaluateTick [upstreamNode, downstreamNode] emptyHistory).2 ↔
        x = ⟨["upstream"], none⟩ ∨ x = ⟨["downstream"], none⟩) ∧
    ((evaluateTick [upstreamNode, downstreamNode] emptyHistory).1.all
        (fun st => !st.trueSubset.isEmpty)) = true := by
  refine ⟨by decide, ?_, by decide⟩
  intro x
  rw [show (evaluateTick [upstreamNode, downstreamNode] emptyHistory).2 =
      [⟨["upstream"], none⟩, ⟨["downstream"], none⟩] from by decide]
  simp

/-- C4. The `missing` condition's `value_hash` is the same for one parent or
two parents and with or without a prior materialization of `A`, but differs
between the unpartitioned and the daily-partitioned partitions definitions. -/
theorem missing_value_hash_invariance :
    expectedValueHash .missingCond .oneParent false =
      some "651bece3ee8bb50d1616924f0a65f3fd" ∧
    expectedValueHash .missingCond .oneParent true =
      expectedValueHash .missingCond .oneParent false ∧
    expectedValueHash .missingCond .twoParents false =
      expectedValueHash .missingCond .oneParent false ∧
    expectedValueHash .missingCond .oneParentDaily false =
      some "ba2310926ab693fc05f1fc48a5b6e537" ∧
    expectedValueHash .missingCond .twoParentsDaily false =
      expectedValueHash .missingCond .oneParentDaily false ∧
    expectedValueHash .missingCond .oneParent false ≠
      expectedValueHash .missingCond .oneParentDaily false := by
  decide

/-- C7. For every tick, the requested set is exactly the union of the
per-asset true-subsets recorded in the tick's evaluation states. -/
theorem requested_subset_is_union_of_true_subsets
    (graph : List AssetNodeModel) (history : SchedulingHistory)
    (akpk : AssetKeyPartitionKey) :
    akpk ∈ (evaluateTick graph history).2 ↔
      ∃ st ∈ (evaluateTick graph history).1, akpk ∈ st.trueSubset := by
  rw [evaluateTick, mem_foldl_append_trueSubset]
  simp

/-- Splitting a delimiter-free string yields the single piece
`acc.reverse ++ b`. -/
theorem pySplitOnDD_no_delim (b : List Char) :
    ∀ acc : List Char, containsDD b = false →
      pySplitOnDD b acc = [acc.reverse ++ b] := by
  induction b with
  | nil => intro acc _; simp [pySplitOnDD]
  | cons c rest ih =>
    intro acc h
    cases rest with
    | nil => simp [pySplitOnDD]
    | cons c2 rest2 =>
      simp only [containsDD, Bool.or_eq_false_iff, Bool.and_eq_false_iff,
        decide_eq_false_iff_not] at h
      rw [pySplitOnDD, if_neg (by
        rintro ⟨rfl, rfl⟩
        rcases h.1 with hc | hc <;> exact hc rfl)]
      rw [ih (c :: acc) h.2]
      simp

/-- Splitting `a ++ "::" ++ b` when `a` is delimiter-free and does not end in
`':'`: the first piece is `acc.reverse ++ a` and the rest is the split of
`b`. -/
theorem pySplitOnDD_delim_split (a : List Char) :
    ∀ (b acc : List Char), containsDD a = false →
      a.getLast? ≠ some ':' →
      pySplitOnDD (a ++ ':' :: ':' :: b) acc =
        (acc.reverse ++ a) :: pySplitOnDD b [] := by
  induction a with
  | nil =>
    intro b acc _ _
    rw [List.nil_append, pySplitOnDD, if_pos ⟨rfl, rfl⟩]
    simp
  | cons c rest ih =>
    intro b acc h hlast
    cases rest with
    | nil =>
      have hc : c ≠ ':' := by
        intro hc
        exact hlast (by simp [hc])
      rw [List.cons_append, List.nil_append, pySplitOnDD,
        if_neg (by rintro ⟨rfl, -⟩; exact hc rfl)]
      rw [pySplitOnDD, if_pos ⟨rfl, rfl⟩]
      simp
    | cons c2 rest2 =>
      simp only [containsDD, Bool.or_eq_false_iff, Bool.and_eq_false_iff,
        decide_eq_false_iff_not] at h
      rw [List.cons_append, List.cons_append, pySplitOnDD, if_neg (by
        rintro ⟨rfl, rfl⟩
        rcases h.1 with hc | hc <;> exact hc rfl)]
      rw [show (c2 :: (rest2 ++ ':' :: ':' :: b)) =
          ((c2 :: rest2) ++ ':' :: ':' :: b) from rfl]
      rw [ih b (c :: acc) h.2 (by
        rw [List.getLast?_cons_cons] at hlast
        exact hlast)]
      simp

/-- C9 (amended). `CompoundID` round-trips through its string form when
neither field contains `"::"` *and* `remote_origin_id` does not end in `':'`
(without the extra condition the delimiter merges with a trailing colon);
and `from_string` raises exactly when the split does not yield two parts,
i.e. exactly when `is_valid_string` is false. -/
theorem compound_id_round_trip (cid : CompoundID)
    (h1 : containsDD cid.remote_origin_id = false)
    (h2 : containsDD cid.selector_id = false)
    (h3 : cid.remote_origin_id.getLast? ≠ some ':') :
    CompoundID.from_string (CompoundID.to_string cid) = .ok cid ∧
    ∀ s : List Char,
      (∃ e, CompoundID.from_string s = .error e) ↔
        CompoundID.is_valid_string s = false := by
  constructor
  · have hsplit : pySplitOnDD (CompoundID.to_string cid) [] =
        [cid.remote_origin_id, cid.selector_id] := by
      rw [CompoundID.to_string, List.append_assoc, List.cons_append,
        List.cons_append, List.nil_append,
        pySplitOnDD_delim_split _ _ _ h1 h3,
        pySplitOnDD_no_delim _ _ h2]
      simp
    simp [CompoundID.from_string, hsplit]
  · intro s
    rcases hp : pySplitOnDD s [] with _ | ⟨p1, _ | ⟨p2, _ | ⟨p3, t⟩⟩⟩ <;>
      simp [CompoundID.from_string, CompoundID.is_valid_string, hp]

/-- C9 counterexample. `CompoundID(remote_origin_id="x:", selector_id="y")`:
neither field contains `"::"`, yet `from_string(to_string(...))` returns
`CompoundID("x", ":y")`, not the original — the claim's round-trip fails. -/
theorem compound_id_round_trip_counterexample :
    containsDD ['x', ':'] = false ∧ containsDD ['y'] = false ∧
    CompoundID.from_string (CompoundID.to_string ⟨['x', ':'], ['y']⟩) =
      .ok ⟨['x'], [':', 'y']⟩ ∧
    (⟨['x'], [':', 'y']⟩ : CompoundID) ≠ ⟨['x', ':'], ['y']⟩ :=
  ⟨by decide, by decide, rfl, by decide⟩

/-- Witness for `compound_id_round_trip` at `CompoundID("ab", "c")`. -/
theorem compound_id_round_trip_witness :
    (containsDD ['a', 'b'] = false ∧ containsDD ['c'] = false ∧
      (['a', 'b'] : List Char).getLast? ≠ some ':') ∧
    (CompoundID.from_string (CompoundID.to_string ⟨['a', 'b'], ['c']⟩) =
        .ok ⟨['a', 'b'], ['c']⟩ ∧
      ∀ s : List Char,
        (∃ e, CompoundID.from_string s = .error e) ↔
          CompoundID.is_valid_string s = false) :=
  ⟨⟨by decide, by decide, by decide⟩,
    compound_id_round_trip ⟨['a', 'b'], ['c']⟩ (by decide) (by decide) (by decide)⟩

/-- The floor of a natural number plus a fractional part in `[0, 1)`. -/
theorem natFloor_natCast_add_of_lt_one (n : ℕ) (f : ℚ) (h0 : 0 ≤ f)
    (h1 : f < 1) : ⌊(n : ℚ) + f⌋₊ = n := by
  rw [add_comm, Nat.floor_add_nat h0, Nat.floor_eq_zero.mpr h1, zero_add]

/-- Python `%` by a positive natural modulus decomposes a non-negative float
into its integer remainder plus its fractional part. -/
theorem pyModQ_decomp (delta : ℚ) (h : 0 ≤ delta) (m : ℕ) (hm : 0 < m) :
    pyModQ delta (m : ℚ) = ((⌊delta⌋₊ % m : ℕ) : ℚ) + Int.fract delta := by
  have hmq : (0 : ℚ) < (m : ℚ) := by exact_mod_cast hm
  have hfl : ⌊delta / (m : ℚ)⌋ = ((⌊delta⌋₊ / m : ℕ) : ℤ) := by
    rw [← Int.natCast_floor_eq_floor (div_nonneg h hmq.le), Nat.floor_div_nat]
  have hself : delta = ((⌊delta⌋₊ : ℕ) : ℚ) + Int.fract delta := by
    rw [← Int.self_sub_floor, ← Int.natCast_floor_eq_floor h]
    push_cast
    ring
  have hd : m * (⌊delta⌋₊ / m) + ⌊delta⌋₊ % m = ⌊delta⌋₊ := Nat.div_add_mod _ _
  have hdq : (m : ℚ) * ((⌊delta⌋₊ / m : ℕ) : ℚ) + ((⌊delta⌋₊ % m : ℕ) : ℚ) =
      ((⌊delta⌋₊ : ℕ) : ℚ) := by exact_mod_cast congrArg (fun k : ℕ => (k : ℚ)) hd
  rw [pyModQ, hfl, Int.cast_natCast]
  linarith [hself, hdq]

/-- The unit-selection of the source (`"days" if days > 1 else "day" if
days == 1 else None`, then `f"{days} {days_unit}"`) agrees with the claim's
component format on non-negative components. -/
theorem sourceComponent_eq_claimComponent (z : ℤ) (sing plur : String)
    (hz : 0 ≤ z) :
    Option.map (fun u => toString z ++ " " ++ u)
      (if z > 1 then some plur else if z = 1 then some sing else none) =
      claimComponent z sing plur := by
  rcases lt_trichotomy z 1 with hlt | heq | hgt
  · have h0 : z = 0 := le_antisymm (by omega) hz
    subst h0
    simp [claimComponent]
  · subst heq
    simp [claimComponent]
  · rw [if_pos hgt, claimComponent, if_neg (by omega : ¬z = 0),
      if_neg (by omega : ¬z = 1)]
    rfl

/-- C10 (amended). For every non-negative `delta`, `seconds_in_words`
produces exactly the claimed format: one `"N unit"` component per non-zero
integer component of the days/hours/minutes/seconds decomposition, singular
exactly for `1`, joined by `", "` in that order; consequently every `delta`
in `[0, 1)` yields the empty string. -/
theorem seconds_in_words_spec (delta : ℚ) (h : 0 ≤ delta) :
    seconds_in_words delta = claimed_seconds_in_words delta ∧
    (delta < 1 → seconds_in_words delta = "") := by
  have hf0 : 0 ≤ Int.fract delta := Int.fract_nonneg _
  have hf1 : Int.fract delta < 1 := Int.fract_lt_one _
  have c86400 : (86400 : ℚ) = ((86400 : ℕ) : ℚ) := by norm_num
  have c3600 : (3600 : ℚ) = ((3600 : ℕ) : ℚ) := by norm_num
  have c60 : (60 : ℚ) = ((60 : ℕ) : ℚ) := by norm_num
  have hdays : ⌊delta / 86400⌋ = ((⌊delta⌋₊ / 86400 : ℕ) : ℤ) := by
    rw [c86400, ← Int.natCast_floor_eq_floor (div_nonneg h (by norm_num)),
      Nat.floor_div_nat]
  have hm86400 : pyModQ delta 86400 =
      ((⌊delta⌋₊ % 86400 : ℕ) : ℚ) + Int.fract delta := by
    rw [c86400, pyModQ_decomp delta h 86400 (by norm_num)]
  have hm3600 : pyModQ delta 3600 =
      ((⌊delta⌋₊ % 3600 : ℕ) : ℚ) + Int.fract delta := by
    rw [c3600, pyModQ_decomp delta h 3600 (by norm_num)]
  have hm60 : pyModQ delta 60 =
      ((⌊delta⌋₊ % 60 : ℕ) : ℚ) + Int.fract delta := by
    rw [c60, pyModQ_decomp delta h 60 (by norm_num)]
  have hhours : ⌊pyModQ delta 86400 / 3600⌋ =
      ((⌊delta⌋₊ % 86400 / 3600 : ℕ) : ℤ) := by
    rw [hm86400, c3600,
      ← Int.natCast_floor_eq_floor
        (div_nonneg (add_nonneg (Nat.cast_nonneg _) hf0) (by norm_num)),
      Nat.floor_div_nat, natFloor_natCast_add_of_lt_one _ _ hf0 hf1]
  have hminutes : ⌊pyModQ delta 3600 / 60⌋ =
      ((⌊delta⌋₊ % 3600 / 60 : ℕ) : ℤ) := by
    rw [hm3600, c60,
      ← Int.natCast_floor_eq_floor
        (div_nonneg (add_nonneg (Nat.cast_nonneg _) hf0) (by norm_num)),
      Nat.floor_div_nat, natFloor_natCast_add_of_lt_one _ _ hf0 hf1]
  have hseconds : ⌊pyModQ delta 60⌋ = ((⌊delta⌋₊ % 60 : ℕ) : ℤ) := by
    rw [hm60, ← Int.natCast_floor_eq_floor (add_nonneg (Nat.cast_nonneg _) hf0),
      natFloor_natCast_add_of_lt_one _ _ hf0 hf1]
  have hmain : seconds_in_words delta = claimed_seconds_in_words delta := by
    simp only [seconds_in_words, claimed_seconds_in_words]
    rw [hdays, hhours, hminutes, hseconds,
      sourceComponent_eq_claimComponent _ _ _ (Int.natCast_nonneg _),
      sourceComponent_eq_claimComponent _ _ _ (Int.natCast_nonneg _),
      sourceComponent_eq_claimComponent _ _ _ (Int.natCast_nonneg _),
      sourceComponent_eq_claimComponent _ _ _ (Int.natCast_nonneg _)]
  refine ⟨hmain, fun hlt => ?_⟩
  have ht : ⌊delta⌋₊ = 0 := Nat.floor_eq_zero.mpr hlt
  rw [hmain]
  simp [claimed_seconds_in_words, ht, claimComponent, String.intercalate]

/-- Witness for `seconds_in_words_spec` at `delta = 90061` (one day, one
hour, one minute, one second). -/
theorem seconds_in_words_spec_witness :
    (0 : ℚ) ≤ 90061 ∧
    (seconds_in_words 90061 = claimed_seconds_in_words 90061 ∧
      ((90061 : ℚ) < 1 → seconds_in_words 90061 = "")) :=
  ⟨by norm_num, seconds_in_words_spec 90061 (by norm_num)⟩

/-- C10 counterexample. At `delta = -86400`, the days component of `delta`
is `-1 ≠ 0`, so the claim requires a `"-1 days"` component in the output —
but `seconds_in_words(-86400)` is the empty string, which contains no such
component. -/
theorem seconds_in_words_negative_counterexample :
    ⌊((-86400 : ℚ) / 86400)⌋ = -1 ∧
    claimComponent ⌊((-86400 : ℚ) / 86400)⌋ "day" "days" = some "-1 days" ∧
    seconds_in_words (-86400) = "" ∧
    ∀ pre post : String, seconds_in_words (-86400) ≠ pre ++ "-1 days" ++ post := by
  have hq1 : ((-86400 : ℚ) / 86400) = ((-1 : ℤ) : ℚ) := by norm_num
  have hd : ⌊((-86400 : ℚ) / 86400)⌋ = -1 := by rw [hq1, Int.floor_intCast]
  have hq2 : ((-86400 : ℚ) / 3600) = ((-24 : ℤ) : ℚ) := by norm_num
  have hq3 : ((-86400 : ℚ) / 60) = ((-1440 : ℤ) : ℚ) := by norm_num
  have hmain : seconds_in_words (-86400) = "" := by
    simp only [seconds_in_words, pyModQ, hq1, hq2, hq3, Int.floor_intCast]
    norm_num
    rfl
  refine ⟨hd, by rw [hd]; rfl, hmain, fun pre post heq => ?_⟩
  rw [hmain] at heq
  have hd2 := congrArg String.data heq
  rw [String.data_append, String.data_append] at hd2
  simp at hd2

/-- The two `BEq (List String)` instances in scope (the structural one and
the one derived from decidable equality) count identically. -/
theorem countDec_eq_count (k : List String) (l : List (List String)) :
    @List.count (List String) instBEqOfDecidableEq k l = l.count k := by
  simp only [List.count]
  exact List.countP_congr fun a _ => by
    by_cases hak : a = k <;> simp [beq_iff_eq, hak]

/-- `Nodup` in terms of the structural-instance `count`. -/
theorem nodup_iff_count_le_one' (l : List (List String)) :
    l.Nodup ↔ ∀ k, l.count k ≤ 1 := by
  rw [List.nodup_iff_count_le_one]
  exact forall_congr' fun k => by rw [countDec_eq_count]

/-- C8. With each entry contributing pairwise-distinct keys (as
`AssetsDefinition.keys` does), `ensure_no_duplicate_assets` raises an
invariant violation whose message contains `"Found duplicate assets"` if and
only if two entries of the list coerce to a common `AssetKey`; every list
with pairwise-distinct coerced keys returns normally. -/
theorem ensure_no_duplicate_assets_spec (assets : List CoercibleAsset)
    (h : ∀ a ∈ assets, (asset_to_keys_iterable a).Nodup) :
    ((∃ msg, ensure_no_duplicate_assets assets = .error msg ∧
        strContains msg "Found duplicate assets") ↔
      ∃ i j : Fin assets.length, (i : ℕ) < (j : ℕ) ∧
        ∃ k, k ∈ asset_to_keys_iterable (assets.get i) ∧
          k ∈ asset_to_keys_iterable (assets.get j)) ∧
    ((assets_to_keys assets).Nodup →
      ensure_no_duplicate_assets assets = .ok ()) := by
  have hok : (assets_to_keys assets).Nodup →
      ensure_no_duplicate_assets assets = .ok () := by
    intro hnd
    have hfil : (assets_to_keys assets).filter
        (fun k => (assets_to_keys assets).count k > 1) = [] :=
      List.filter_eq_nil_iff.mpr fun k _ => by
        simpa using Nat.not_lt.mpr ((nodup_iff_count_le_one' _).mp hnd k)
    simp [ensure_no_duplicate_assets, hfil]
  have hbridge : ¬(assets_to_keys assets).Nodup ↔
      ∃ i j : Fin assets.length, (i : ℕ) < (j : ℕ) ∧
        ∃ k, k ∈ asset_to_keys_iterable (assets.get i) ∧
          k ∈ asset_to_keys_iterable (assets.get j) := by
    constructor
    · intro hnot
      have hnp : ¬ assets.Pairwise (List.Disjoint on asset_to_keys_iterable) := by
        intro hp
        exact hnot (List.nodup_flatMap.mpr ⟨h, hp⟩)
      rw [List.pairwise_iff_get] at hnp
      push_neg at hnp
      obtain ⟨i, j, hij, hnd⟩ := hnp
      simp only [Function.onFun, List.Disjoint] at hnd
      push_neg at hnd
      obtain ⟨k, hk1, hk2⟩ := hnd
      exact ⟨i, j, hij, k, hk1, hk2.1⟩
    · rintro ⟨i, j, hij, k, hk1, hk2⟩ hnd
      have hp := (List.nodup_flatMap.mp hnd).2
      have hdisj := List.pairwise_iff_get.mp hp i j hij
      simp only [Function.onFun, List.Disjoint] at hdisj
      exact hdisj hk1 hk2
  have herr : ¬(assets_to_keys assets).Nodup →
      ∃ msg, ensure_no_duplicate_assets assets = .error msg ∧
        strContains msg "Found duplicate assets" := by
    intro hnd
    have hex : ∃ k, 1 < (assets_to_keys assets).count k := by
      by_contra hc
      push_neg at hc
      exact hnd ((nodup_iff_count_le_one' _).mpr hc)
    obtain ⟨k, hk⟩ := hex
    have hkmem : k ∈ assets_to_keys assets := List.count_pos_iff.mp (by omega)
    have hkfil : k ∈ (assets_to_keys assets).filter
        (fun k' => (assets_to_keys assets).count k' > 1) :=
      List.mem_filter.mpr ⟨hkmem, by simpa using hk⟩
    have hne : ¬((assets_to_keys assets).filter
        (fun k' => (assets_to_keys assets).count k' > 1)).length = 0 := by
      intro h0
      rw [List.length_eq_zero] at h0
      rw [h0] at hkfil
      exact absurd hkfil (List.not_mem_nil k)
    refine ⟨"Found duplicate assets in the provided list of assets: "
        ++ toString ((assets_to_keys assets).filter
          (fun k' => (assets_to_keys assets).count k' > 1))
        ++ ". Please ensure that each asset is unique.", ?_, ?_⟩
    · simp only [ensure_no_duplicate_assets]
      rw [if_neg hne]
    · refine ⟨[], (" in the provided list of assets: "
        ++ toString ((assets_to_keys assets).filter
          (fun k' => (assets_to_keys assets).count k' > 1))
        ++ ". Please ensure that each asset is unique.").data, ?_⟩
      rw [List.nil_append,
        show ("Found duplicate assets in the provided list of assets: " : String)
          = "Found duplicate assets" ++ " in the provided list of assets: "
          from rfl]
      simp [String.data_append, List.append_assoc]
  refine ⟨⟨?_, fun hex => herr (hbridge.mpr hex)⟩, hok⟩
  rintro ⟨msg, hmsg, -⟩
  by_cases hnd : (assets_to_keys assets).Nodup
  · rw [hok hnd] at hmsg
    simp at hmsg
  · exact hbridge.mp hnd

/-- Witness for `ensure_no_duplicate_assets_spec` on the duplicate pair
`[my_asset, my_asset]` from `test_params`. -/
theorem ensure_no_duplicate_assets_spec_witness :
    (∀ a ∈ [CoercibleAsset.coercibleKey ["my_asset"],
        CoercibleAsset.coercibleKey ["my_asset"]],
      (asset_to_keys_iterable a).Nodup) ∧
    (((∃ msg, ensure_no_duplicate_assets
          [CoercibleAsset.coercibleKey ["my_asset"],
            CoercibleAsset.coercibleKey ["my_asset"]] = .error msg ∧
        strContains msg "Found duplicate assets") ↔
      ∃ i j : Fin ([CoercibleAsset.coercibleKey ["my_asset"],
          CoercibleAsset.coercibleKey ["my_asset"]] :
            List CoercibleAsset).length, (i : ℕ) < (j : ℕ) ∧
        ∃ k, k ∈ asset_to_keys_iterable
            (([CoercibleAsset.coercibleKey ["my_asset"],
              CoercibleAsset.coercibleKey ["my_asset"]] :
                List CoercibleAsset).get i) ∧
          k ∈ asset_to_keys_iterable
            (([CoercibleAsset.coercibleKey ["my_asset"],
              CoercibleAsset.coercibleKey ["my_asset"]] :
                List CoercibleAsset).get j)) ∧
    ((assets_to_keys [CoercibleAsset.coercibleKey ["my_asset"],
        CoercibleAsset.coercibleKey ["my_asset"]]).Nodup →
      ensure_no_duplicate_assets
        [CoercibleAsset.coercibleKey ["my_asset"],
          CoercibleAsset.coercibleKey ["my_asset"]] = .ok ())) :=
  ⟨by decide, ensure_no_duplicate_assets_spec _ (by decide)⟩

/-- `head?` after `take 1` is `head?`. -/
theorem head?_take_one {α : Type} (l : List α) : (l.take 1).head? = l.head? := by
  cases l <;> rfl

/-- A `take 1` whose head is `some a` is exactly `[a]`. -/
theorem take_one_head?_some {α : Type} (l : List α) (a : α)
    (h : (l.take 1).head? = some a) : l.take 1 = [a] := by
  cases l with
  | nil => simp at h
  | cons x t =>
    simp only [List.take_succ_cons, List.take_zero, List.head?_cons,
      Option.some.injEq] at h
    simp [h]

/-- A `fetch_*` query returns nothing exactly when no record of that event
type matches the key/partition filter. -/
theorem fetch_head_eq_none_iff (inst : DagsterInstance) (t : DagsterEventType)
    (asset_key : List String) (partition_key : Option String) :
    ((inst.records.filter (fun r =>
        r.eventType == t && recordMatches asset_key partition_key r)).take 1).head?
        = none ↔
      ∀ r ∈ inst.records,
        ¬(r.eventType = t ∧ recordMatches asset_key partition_key r = true) := by
  rw [head?_take_one, List.head?_eq_none_iff, List.filter_eq_nil_iff]
  refine forall_congr' fun r => forall_congr' fun _ => ?_
  simp [Bool.and_eq_true, beq_iff_eq]

/-- C6. `retrieve_latest_record` returns `None` when the asset (restricted
to the partition, if given) has neither kind of record; the latest record of
the only kind present when exactly one kind exists; and, when both exist,
whichever of the latest materialization and latest observation has the
greater extracted timestamp (storage timestamp for a materialization, the
`dagster/last_updated_timestamp` metadata float for an observation; the
materialization on ties). -/
theorem retrieve_latest_record_spec (inst : DagsterInstance)
    (asset_key : List String) (partition_key : Option String) :
    (latestMaterialization inst asset_key partition_key = none ↔
      ∀ r ∈ inst.records, ¬(r.eventType = .assetMaterialization ∧
        recordMatches asset_key partition_key r = true)) ∧
    (latestObservation inst asset_key partition_key = none ↔
      ∀ r ∈ inst.records, ¬(r.eventType = .assetObservation ∧
        recordMatches asset_key partition_key r = true)) ∧
    (∀ r, r.eventType = .assetMaterialization →
      retrieve_timestamp_from_record r = .ok r.timestamp) ∧
    (∀ r v, r.eventType = .assetObservation →
      r.metadata.lookup LAST_UPDATED_TIMESTAMP_METADATA_KEY =
        some (.floatValue v) →
      retrieve_timestamp_from_record r = .ok v) ∧
    (latestMaterialization inst asset_key partition_key = none →
      latestObservation inst asset_key partition_key = none →
      retrieve_latest_record inst asset_key partition_key = .ok none) ∧
    (∀ m, latestMaterialization inst asset_key partition_key = some m →
      latestObservation inst asset_key partition_key = none →
      retrieve_latest_record inst asset_key partition_key = .ok (some m)) ∧
    (∀ o, latestMaterialization inst asset_key partition_key = none →
      latestObservation inst asset_key partition_key = some o →
      retrieve_latest_record inst asset_key partition_key = .ok (some o)) ∧
    (∀ m o tm tobs,
      latestMaterialization inst asset_key partition_key = some m →
      latestObservation inst asset_key partition_key = some o →
      retrieve_timestamp_from_record m = .ok tm →
      retrieve_timestamp_from_record o = .ok tobs →
      retrieve_latest_record inst asset_key partition_key =
        .ok (some (if tm < tobs then o else m))) := by
  refine ⟨?_, ?_, ?_, ?_, ?_, ?_, ?_, ?_⟩
  · exact fetch_head_eq_none_iff inst .assetMaterialization asset_key partition_key
  · exact fetch_head_eq_none_iff inst .assetObservation asset_key partition_key
  · intro r hr
    simp [retrieve_timestamp_from_record, hr]
  · intro r v hr hv
    rw [retrieve_timestamp_from_record, if_neg (by rw [hr]; simp), hv]
  · intro hm ho
    rw [latestMaterialization] at hm
    rw [latestObservation] at ho
    rw [retrieve_latest_record, List.head?_eq_none_iff.mp hm,
      List.head?_eq_none_iff.mp ho]
  · intro m hm ho
    rw [latestMaterialization] at hm
    rw [latestObservation] at ho
    have h1 : fetch_materializations inst asset_key partition_key = [m] := by
      rw [fetch_materializations] at hm ⊢
      exact take_one_head?_some _ _ hm
    rw [retrieve_latest_record, h1, List.head?_eq_none_iff.mp ho]
  · intro o hm ho
    rw [latestMaterialization] at hm
    rw [latestObservation] at ho
    have h2 : fetch_observations inst asset_key partition_key = [o] := by
      rw [fetch_observations] at ho ⊢
      exact take_one_head?_some _ _ ho
    rw [retrieve_latest_record, h2, List.head?_eq_none_iff.mp hm]
  · intro m o tm tobs hm ho htm hto
    rw [latestMaterialization] at hm
    rw [latestObservation] at ho
    have h1 : fetch_materializations inst asset_key partition_key = [m] := by
      rw [fetch_materializations] at hm ⊢
      exact take_one_head?_some _ _ hm
    have h2 : fetch_observations inst asset_key partition_key = [o] := by
      rw [fetch_observations] at ho ⊢
      exact take_one_head?_some _ _ ho
    rw [retrieve_latest_record, h1, h2]
    show (retrieve_timestamp_from_record m).bind
        (fun tm' => (retrieve_timestamp_from_record o).bind
          (fun tobs' => pure (some (if tobs' > tm' then o else m)))) =
      Except.ok (some (if tm < tobs then o else m))
    rw [htm, hto]
    rfl

/-- Witness for `retrieve_latest_record_spec`: a store holding one
materialization (storage timestamp 50) and one observation (metadata
timestamp 99) of asset `a` — the observation wins. -/
theorem retrieve_latest_record_spec_witness :
    (latestMaterialization
        ⟨[⟨.assetObservation, 10, ["a"], none,
            [("dagster/last_updated_timestamp", .floatValue 99)]⟩,
          ⟨.assetMaterialization, 50, ["a"], none, []⟩]⟩ ["a"] none =
        some ⟨.assetMaterialization, 50, ["a"], none, []⟩ ∧
      latestObservation
        ⟨[⟨.assetObservation, 10, ["a"], none,
            [("dagster/last_updated_timestamp", .floatValue 99)]⟩,
          ⟨.assetMaterialization, 50, ["a"], none, []⟩]⟩ ["a"] none =
        some ⟨.assetObservation, 10, ["a"], none,
          [("dagster/last_updated_timestamp", .floatValue 99)]⟩ ∧
      retrieve_timestamp_from_record
        ⟨.assetMaterialization, 50, ["a"], none, []⟩ = .ok 50 ∧
      retrieve_timestamp_from_record
        ⟨.assetObservation, 10, ["a"], none,
          [("dagster/last_updated_timestamp", .floatValue 99)]⟩ = .ok 99) ∧
    retrieve_latest_record
      ⟨[⟨.assetObservation, 10, ["a"], none,
          [("dagster/last_updated_timestamp", .floatValue 99)]⟩,
        ⟨.assetMaterialization, 50, ["a"], none, []⟩]⟩ ["a"] none =
      .ok (some (if (50 : ℚ) < 99 then
        ⟨.assetObservation, 10, ["a"], none,
          [("dagster/last_updated_timestamp", .floatValue 99)]⟩
        else ⟨.assetMaterialization, 50, ["a"], none, []⟩)) :=
  ⟨⟨rfl, rfl, rfl, rfl⟩,
    (retrieve_latest_record_spec
        ⟨[⟨.assetObservation, 10, ["a"], none,
            [("dagster/last_updated_timestamp", .floatValue 99)]⟩,
          ⟨.assetMaterialization, 50, ["a"], none, []⟩]⟩
        ["a"] none).2.2.2.2.2.2.2
      ⟨.assetMaterialization, 50, ["a"], none, []⟩
      ⟨.assetObservation, 10, ["a"], none,
        [("dagster/last_updated_timestamp", .floatValue 99)]⟩
      50 99 rfl rfl rfl rfl⟩

/-- `any` is invariant under permutation. -/
theorem perm_any_eq {α : Type} {l₁ l₂ : List α} (h : l₁.Perm l₂)
    (p : α → Bool) : l₁.any p = l₂.any p := by
  rw [Bool.eq_iff_iff]
  simp only [List.any_eq_true]
  constructor
  · rintro ⟨x, hx, hp⟩
    exact ⟨x, h.mem_iff.mp hx, hp⟩
  · rintro ⟨x, hx, hp⟩
    exact ⟨x, h.mem_iff.mpr hx, hp⟩

/-- Resolving the left fold of differences: the base minus everything any
subtracted sensor selects. -/
theorem resolveSelection_foldl_difference (l : List SensorData)
    (base : AssetSelection) (g : AssetGraphModel) (k : EntityKey) :
    resolveSelection (l.foldl (fun acc s => .difference acc s.assetSelection) base) g k
      = (resolveSelection base g k
          && !(l.any (fun s => resolveSelection s.assetSelection g k))) := by
  induction l generalizing base with
  | nil => simp
  | cons s t ih =>
    rw [List.foldl_cons, ih]
    simp [resolveSelection, Bool.and_assoc]

/-- Membership in `default_sensor_entity_keys` is exactly eligibility plus
non-coverage. -/
theorem mem_defaultSensorEntityKeys (g : AssetGraphModel)
    (ex : List SensorData) (k : EntityKey) :
    k ∈ defaultSensorEntityKeys g ex ↔
      (eligibleEntityKey g k = true ∧ coveredByExisting g ex k = false) := by
  cases k with
  | asset a =>
    simp [defaultSensorEntityKeys, eligibleEntityKey, List.mem_filter,
      List.mem_append, List.mem_map]
    tauto
  | check a n =>
    simp [defaultSensorEntityKeys, eligibleEntityKey, List.mem_filter,
      List.mem_append, List.mem_map]
    tauto

/-- When the computation yields a default sensor, its selection is the fold
of differences over the existing automation sensors, and the key list was
non-empty. -/
theorem externalSensorsDefaultSelection_eq_some (g : AssetGraphModel)
    (sensors : List SensorData) (sel : AssetSelection)
    (h : externalSensorsDefaultSelection g sensors true = some sel) :
    (defaultSensorEntityKeys g (sensors.filter isAutomationConditionSensor)).isEmpty
        = false ∧
    sel = (sensors.filter isAutomationConditionSensor).foldl
      (fun acc s => .difference acc s.assetSelection)
      (defaultSensorBaseSelection g (sensors.filter isAutomationConditionSensor)) := by
  simp only [externalSensorsDefaultSelection, if_pos] at h
  cases hemp : (defaultSensorEntityKeys g
      (sensors.filter isAutomationConditionSensor)).isEmpty with
  | true => rw [hemp] at h; simp at h
  | false =>
    rw [hemp] at h
    simp at h
    exact ⟨rfl, h.symm⟩

/-- Whether the default sensor is added only depends on the key list being
non-empty. -/
theorem externalSensorsDefaultSelection_isSome (g : AssetGraphModel)
    (sensors : List SensorData) :
    (externalSensorsDefaultSelection g sensors true).isSome =
      !(defaultSensorEntityKeys g
          (sensors.filter isAutomationConditionSensor)).isEmpty := by
  rw [externalSensorsDefaultSelection, if_pos rfl]
  cases hemp : (defaultSensorEntityKeys g
      (sensors.filter isAutomationConditionSensor)).isEmpty <;> simp [hemp]

/-- C5. With auto-materialize sensors enabled: the
`default_automation_condition_sensor` is added iff some eligible entity key
(materializable asset or check with an automation condition, or observable
asset with auto-observe interval or automation condition) is uncovered by
every existing automation-condition sensor; its selection resolves to the
base selection (`AssetSelection.all`, with sources iff an auto-observe
source exists, plus all asset checks iff some uncovered key is a check key)
minus everything covered by an existing automation sensor; and the resolved
selection (and whether the sensor is added) is invariant under permuting the
existing sensors. -/
theorem default_automation_sensor_spec (g : AssetGraphModel)
    (sensors sensors' : List SensorData) (hperm : sensors.Perm sensors') :
    ((externalSensorsDefaultSelection g sensors true).isSome ↔
      ∃ k, eligibleEntityKey g k = true ∧
        coveredByExisting g (sensors.filter isAutomationConditionSensor) k
          = false) ∧
    (∀ sel, externalSensorsDefaultSelection g sensors true = some sel →
      ∀ k, resolveSelection sel g k =
        (resolveSelection
            (defaultSensorBaseSelection g
              (sensors.filter isAutomationConditionSensor)) g k
          && !coveredByExisting g
              (sensors.filter isAutomationConditionSensor) k)) ∧
    ((externalSensorsDefaultSelection g sensors true).isSome =
      (externalSensorsDefaultSelection g sensors' true).isSome) ∧
    (∀ sel sel', externalSensorsDefaultSelection g sensors true = some sel →
      externalSensorsDefaultSelection g sensors' true = some sel' →
      ∀ k, resolveSelection sel g k = resolveSelection sel' g k) := by
  have hcov : ∀ k, coveredByExisting g (sensors.filter isAutomationConditionSensor) k
      = coveredByExisting g (sensors'.filter isAutomationConditionSensor) k :=
    fun k => perm_any_eq (hperm.filter isAutomationConditionSensor) _
  have hkeys : defaultSensorEntityKeys g (sensors.filter isAutomationConditionSensor)
      = defaultSensorEntityKeys g (sensors'.filter isAutomationConditionSensor) := by
    rw [defaultSensorEntityKeys, defaultSensorEntityKeys]
    congr 1
    · exact List.filter_congr fun k _ => by rw [hcov]
    · exact List.filter_congr fun k _ => by rw [hcov]
  have hbase : defaultSensorBaseSelection g (sensors.filter isAutomationConditionSensor)
      = defaultSensorBaseSelection g (sensors'.filter isAutomationConditionSensor) := by
    rw [defaultSensorBaseSelection, defaultSensorBaseSelection, hkeys]
  have hresolve : ∀ sel, externalSensorsDefaultSelection g sensors true = some sel →
      ∀ k, resolveSelection sel g k =
        (resolveSelection (defaultSensorBaseSelection g
            (sensors.filter isAutomationConditionSensor)) g k
          && !coveredByExisting g (sensors.filter isAutomationConditionSensor) k) := by
    intro sel hsel k
    rw [(externalSensorsDefaultSelection_eq_some g sensors sel hsel).2,
      resolveSelection_foldl_difference]
    rfl
  have hresolve' : ∀ sel, externalSensorsDefaultSelection g sensors' true = some sel →
      ∀ k, resolveSelection sel g k =
        (resolveSelection (defaultSensorBaseSelection g
            (sensors'.filter isAutomationConditionSensor)) g k
          && !coveredByExisting g (sensors'.filter isAutomationConditionSensor) k) := by
    intro sel hsel k
    rw [(externalSensorsDefaultSelection_eq_some g sensors' sel hsel).2,
      resolveSelection_foldl_difference]
    rfl
  refine ⟨?_, hresolve, ?_, ?_⟩
  · rw [externalSensorsDefaultSelection_isSome]
    cases hemp : (defaultSensorEntityKeys g
        (sensors.filter isAutomationConditionSensor)).isEmpty with
    | true =>
      simp only [Bool.not_true]
      rw [List.isEmpty_iff] at hemp
      constructor
      · intro hfalse; cases hfalse
      · rintro ⟨k, helig, hncov⟩
        have : k ∈ defaultSensorEntityKeys g
            (sensors.filter isAutomationConditionSensor) :=
          (mem_defaultSensorEntityKeys g _ k).mpr ⟨helig, hncov⟩
        rw [hemp] at this
        cases this
    | false =>
      simp only [Bool.not_false]
      constructor
      · intro _
        have hne : defaultSensorEntityKeys g
            (sensors.filter isAutomationConditionSensor) ≠ [] := by
          intro h0
          rw [h0] at hemp
          cases hemp
        obtain ⟨k, hk⟩ := List.exists_mem_of_ne_nil _ hne
        exact ⟨k, (mem_defaultSensorEntityKeys g _ k).mp hk⟩
      · intro _; trivial
  · rw [externalSensorsDefaultSelection_isSome,
      externalSensorsDefaultSelection_isSome, hkeys]
  · intro sel sel' hsel hsel' k
    rw [hresolve sel hsel k, hresolve' sel' hsel' k, hcov, hbase]

/-- Witness for `default_automation_sensor_spec`: one uncovered
materializable asset with an automation condition, two existing automation
sensors listed in either order. -/
theorem default_automation_sensor_spec_witness :
    ([(⟨"s1", .automation, .keys [.asset ["b"]]⟩ : SensorData),
        ⟨"s2", .autoMaterialize, .keys [.asset ["c"]]⟩] :
          List SensorData).Perm
      [⟨"s2", .autoMaterialize, .keys [.asset ["c"]]⟩,
        ⟨"s1", .automation, .keys [.asset ["b"]]⟩] ∧
    (((externalSensorsDefaultSelection
          ⟨[["a"], ["b"], ["c"]], [], [], fun _ => true, fun _ => none⟩
          [⟨"s1", .automation, .keys [.asset ["b"]]⟩,
            ⟨"s2", .autoMaterialize, .keys [.asset ["c"]]⟩] true).isSome ↔
        ∃ k, eligibleEntityKey
            ⟨[["a"], ["b"], ["c"]], [], [], fun _ => true, fun _ => none⟩ k
            = true ∧
          coveredByExisting
            ⟨[["a"], ["b"], ["c"]], [], [], fun _ => true, fun _ => none⟩
            ([⟨"s1", .automation, .keys [.asset ["b"]]⟩,
              ⟨"s2", .autoMaterialize, .keys [.asset ["c"]]⟩].filter
                isAutomationConditionSensor) k = false) ∧
      (∀ sel, externalSensorsDefaultSelection
          ⟨[["a"], ["b"], ["c"]], [], [], fun _ => true, fun _ => none⟩
          [⟨"s1", .automation, .keys [.asset ["b"]]⟩,
            ⟨"s2", .autoMaterialize, .keys [.asset ["c"]]⟩] true = some sel →
        ∀ k, resolveSelection sel
            ⟨[["a"], ["b"], ["c"]], [], [], fun _ => true, fun _ => none⟩ k =
          (resolveSelection
              (defaultSensorBaseSelection
                ⟨[["a"], ["b"], ["c"]], [], [], fun _ => true, fun _ => none⟩
                ([⟨"s1", .automation, .keys [.asset ["b"]]⟩,
                  ⟨"s2", .autoMaterialize, .keys [.asset ["c"]]⟩].filter
                    isAutomationConditionSensor))
              ⟨[["a"], ["b"], ["c"]], [], [], fun _ => true, fun _ => none⟩ k
            && !coveredByExisting
                ⟨[["a"], ["b"], ["c"]], [], [], fun _ => true, fun _ => none⟩
                ([⟨"s1", .automation, .keys [.asset ["b"]]⟩,
                  ⟨"s2", .autoMaterialize, .keys [.asset ["c"]]⟩].filter
                    isAutomationConditionSensor) k)) ∧
      ((externalSensorsDefaultSelection
          ⟨[["a"], ["b"], ["c"]], [], [], fun _ => true, fun _ => none⟩
          [⟨"s1", .automation, .keys [.asset ["b"]]⟩,
            ⟨"s2", .autoMaterialize, .keys [.asset ["c"]]⟩] true).isSome =
        (externalSensorsDefaultSelection
          ⟨[["a"], ["b"], ["c"]], [], [], fun _ => true, fun _ => none⟩
          [⟨"s2", .autoMaterialize, .keys [.asset ["c"]]⟩,
            ⟨"s1", .automation, .keys [.asset ["b"]]⟩] true).isSome) ∧
      (∀ sel sel', externalSensorsDefaultSelection
          ⟨[["a"], ["b"], ["c"]], [], [], fun _ => true, fun _ => none⟩
          [⟨"s1", .automation, .keys [.asset ["b"]]⟩,
            ⟨"s2", .autoMaterialize, .keys [.asset ["c"]]⟩] true = some sel →
        externalSensorsDefaultSelection
          ⟨[["a"], ["b"], ["c"]], [], [], fun _ => true, fun _ => none⟩
          [⟨"s2", .autoMaterialize, .keys [.asset ["c"]]⟩,
            ⟨"s1", .automation, .keys [.asset ["b"]]⟩] true = some sel' →
        ∀ k, resolveSelection sel
            ⟨[["a"], ["b"], ["c"]], [], [], fun _ => true, fun _ => none⟩ k =
          resolveSelection sel'
            ⟨[["a"], ["b"], ["c"]], [], [], fun _ => true, fun _ => none⟩ k)) :=
  ⟨List.Perm.swap _ _ _,
    default_automation_sensor_spec
      ⟨[["a"], ["b"], ["c"]], [], [], fun _ => true, fun _ => none⟩
      [⟨"s1", .automation, .keys [.asset ["b"]]⟩,
        ⟨"s2", .autoMaterialize, .keys [.asset ["c"]]⟩]
      [⟨"s2", .autoMaterialize, .keys [.asset ["c"]]⟩,
        ⟨"s1", .automation, .keys [.asset ["b"]]⟩]
      (List.Perm.swap _ _ _)⟩

end DagsterSpec
